import Mathlib

/-!
Verification development for `scripts/weekly_review.py`.

The script is a linear pipeline: scan a notes directory for `.md` files,
parse an optional YAML front-matter header, resolve a date for each note
(metadata `date` field, else first 10 filename characters), keep notes whose
date is at least `now - days`, build one prompt for an external text service,
and write the produced review to `weekly_reviews/<date>-Weekly-Review.md`.

The embedding below models the script shallowly:
* file contents are given as strings (the directory walk is a list of files
  in walk order);
* `yaml.safe_load` is an oracle parameter `String → Except String YamlVal`
  (the library is external to the repository); its possible result values and
  the Python operations the script applies to them (`in`, `[...]`, `.get`,
  truthiness, `str(...)`) are modelled faithfully per value shape;
* the external generative service is an oracle `String → Except String String`
  (`Except.error` models a raised exception, carrying `str(e)`);
* `datetime.datetime` values are a calendar date plus microseconds of the day,
  compared through their linear timestamp `DateTime.ts`;
* raised-and-caught Python exceptions are `Except.error` values.
-/

/-! ### String helpers (Python string operations, on code points) -/

/-- Python slice `s[:n]` (by code points). -/
def strTake (n : Nat) (s : String) : String := ⟨s.data.take n⟩

/-- Python `s.startswith(p)`. -/
def strStartsWith (s p : String) : Bool := p.data.isPrefixOf s.data

/-- Python `s.endswith(p)`. -/
def strEndsWith (s p : String) : Bool := p.data.isSuffixOf s.data

/-- Split off the text before and after the leftmost occurrence of `sep`. -/
def splitFirst (sep : List Char) : List Char → Option (List Char × List Char)
  | [] => if sep.isPrefixOf ([] : List Char) then some ([], []) else Option.none
  | c :: rest =>
      if sep.isPrefixOf (c :: rest) then some ([], (c :: rest).drop sep.length)
      else
        match splitFirst sep rest with
        | some (a, b) => some (c :: a, b)
        | Option.none => Option.none

/-- Fuel-driven repeated splitting (the fuel `l.length + 1` always suffices
for a nonempty separator). -/
def splitOnAux (sep : List Char) : Nat → List Char → List (List Char)
  | 0, l => [l]
  | Nat.succ fuel, l =>
      match splitFirst sep l with
      | some (a, b) => a :: splitOnAux sep fuel b
      | Option.none => [l]

/-- Python `s.split(sep)` (all occurrences, leftmost first, non-overlapping). -/
def listSplitOn (sep l : List Char) : List (List Char) := splitOnAux sep (l.length + 1) l

/-- Substring test, as in Python `needle in hay` for strings. -/
def containsSub (needle : List Char) : List Char → Bool
  | [] => needle.isPrefixOf ([] : List Char)
  | c :: rest => needle.isPrefixOf (c :: rest) || containsSub needle rest

/-- Python `needle in hay` on strings. -/
def strContains (hay needle : String) : Bool := containsSub needle.data hay.data

/-- The characters Python `str.strip()` removes (ASCII whitespace). -/
def isPySpace (c : Char) : Bool :=
  c == ' ' || c == '\t' || c == '\n' || c == '\r' || c == '\x0b' || c == '\x0c'

/-- Python `s.strip()`. -/
def pyStrip (s : String) : String :=
  ⟨((s.data.dropWhile isPySpace).reverse.dropWhile isPySpace).reverse⟩

/-- Numeric value of a digit string. -/
def digitsVal (l : List Char) : Nat := l.foldl (fun a c => a * 10 + (c.toNat - 48)) 0

/-- All characters are ASCII digits. -/
def allDigits (l : List Char) : Bool := l.all (fun c => c.isDigit)

/-- Comma-and-space joining, as in Python container reprs. -/
def joinComma : List String → String
  | [] => ""
  | [s] => s
  | s :: rest => s ++ ", " ++ joinComma rest

/-- Left-to-right concatenation (the `prompt += block` loop). -/
def concatStrs : List String → String
  | [] => ""
  | s :: rest => s ++ concatStrs rest

/-! ### Dates and datetimes -/

/-- A calendar date (`datetime.date`). -/
structure Date where
  year : Nat
  month : Nat
  day : Nat
deriving DecidableEq, Repr

/-- Gregorian leap-year test. -/
def isLeap (y : Nat) : Bool := (y % 4 == 0 && y % 100 != 0) || y % 400 == 0

/-- Days in a month, as validated by the `datetime` constructor. -/
def daysInMonth (y m : Nat) : Nat :=
  if m == 2 then (if isLeap y then 29 else 28)
  else if m == 4 || m == 6 || m == 9 || m == 11 then 30
  else 31

/-- Count of days since the civil epoch (standard days-from-civil algorithm);
linearizes date comparison. -/
def Date.toDays (d : Date) : Nat :=
  let y := if d.month ≤ 2 then d.year - 1 else d.year
  let era := y / 400
  let yoe := y % 400
  let mp := (d.month + 9) % 12
  let doy := (153 * mp + 2) / 5 + (d.day - 1)
  let doe := yoe * 365 + yoe / 4 - yoe / 100 + doy
  era * 146097 + doe

/-- Microseconds per day (`datetime` resolution). -/
def usPerDay : Nat := 86400000000

/-- A `datetime.datetime`: a date plus the time of day in microseconds. -/
structure DateTime where
  date : Date
  tod : Nat
deriving DecidableEq, Repr

/-- Linear timestamp; `datetime` comparison is comparison of timestamps. -/
def DateTime.ts (t : DateTime) : Int := (t.date.toDays : Int) * (usPerDay : Int) + (t.tod : Int)

/-- `datetime.datetime(d.year, d.month, d.day)`: midnight of a date. -/
def Date.toDateTime (d : Date) : DateTime := ⟨d, 0⟩

/-- Two-digit zero padding (`%m`, `%d`). -/
def pad2 (n : Nat) : String := if n < 10 then "0" ++ toString n else toString n

/-- Four-digit zero padding (`%Y`). -/
def pad4 (n : Nat) : String :=
  if n < 10 then "000" ++ toString n
  else if n < 100 then "00" ++ toString n
  else if n < 1000 then "0" ++ toString n
  else toString n

/-- `strftime('%Y-%m-%d')`. -/
def Date.fmtYmd (d : Date) : String := pad4 d.year ++ "-" ++ pad2 d.month ++ "-" ++ pad2 d.day

/-- `datetime.datetime.strptime(s, '%Y-%m-%d')`: a four-digit year, one- or
two-digit month and day, dash separated, full match, validated against the
calendar (month 1..12, day within the month, year at least `MINYEAR = 1`);
returns `none` where Python raises `ValueError`. -/
def strptimeYmd (s : String) : Option Date :=
  match listSplitOn (['-']) s.data with
  | [ys, ms, ds] =>
      let y := digitsVal ys
      let m := digitsVal ms
      let d := digitsVal ds
      if allDigits ys && allDigits ms && allDigits ds
          && (ys.length == 4)
          && decide (1 ≤ ms.length) && decide (ms.length ≤ 2)
          && decide (1 ≤ ds.length) && decide (ds.length ≤ 2)
          && decide (1 ≤ m) && decide (m ≤ 12)
          && decide (1 ≤ d) && decide (d ≤ 31)
          && decide (1 ≤ y) && decide (d ≤ daysInMonth y m)
      then some ⟨y, m, d⟩
      else Option.none
  | _ => Option.none

/-! ### YAML values and the Python operations applied to them -/

/-- Results `yaml.safe_load` can hand back that matter to the script:
`None`, scalars (strings, integers, native dates) and containers. -/
inductive YamlVal where
  | nullv : YamlVal
  | str (s : String) : YamlVal
  | int (i : Int) : YamlVal
  | date (d : Date) : YamlVal
  | list (xs : List YamlVal) : YamlVal
  | map (kv : List (String × YamlVal)) : YamlVal

/-- Python single-quoted repr of a string. -/
def pyQuote (s : String) : String := "\x27" ++ s ++ "\x27"

/-- Python `repr` of a YAML value. -/
def YamlVal.pyRepr : YamlVal → String
  | .nullv => "None"
  | .str s => pyQuote s
  | .int i => toString i
  | .date d =>
      "datetime.date(" ++ toString d.year ++ ", " ++ toString d.month ++ ", "
        ++ toString d.day ++ ")"
  | .list xs => "[" ++ joinComma (xs.attach.map (fun x => YamlVal.pyRepr x.1)) ++ "]"
  | .map kv =>
      "\x7b" ++ joinComma (kv.attach.map (fun p => pyQuote p.1.1 ++ ": " ++ YamlVal.pyRepr p.1.2))
        ++ "\x7d"
termination_by v => sizeOf v
decreasing_by
  · have h := List.sizeOf_lt_of_mem x.2
    simp only [YamlVal.list.sizeOf_spec]
    omega
  · have h := List.sizeOf_lt_of_mem p.2
    obtain ⟨⟨a, b⟩, hp⟩ := p
    simp only [Prod.mk.sizeOf_spec] at h
    simp only [YamlVal.map.sizeOf_spec]
    omega

/-- Python `str(v)`: identity on strings, ISO form for dates, repr otherwise. -/
def YamlVal.pyStr : YamlVal → String
  | .nullv => "None"
  | .str s => s
  | .date d => d.fmtYmd
  | .int i => toString i
  | v => v.pyRepr

/-- Python truthiness of a YAML value. -/
def YamlVal.truthy : YamlVal → Bool
  | .nullv => false
  | .str s => !s.data.isEmpty
  | .int i => !(i == 0)
  | .date _ => true
  | .list xs => !xs.isEmpty
  | .map kv => !kv.isEmpty

/-- Whether the value is a mapping (a Python `dict`). -/
def YamlVal.isMap : YamlVal → Bool
  | .map _ => true
  | _ => false

/-- Python type name, used in modelled exception messages. -/
def YamlVal.typeName : YamlVal → String
  | .nullv => "NoneType"
  | .str _ => "str"
  | .int _ => "int"
  | .date _ => "datetime.date"
  | .list _ => "list"
  | .map _ => "dict"

/-- Python `'date' in fm`: key test on dicts, substring test on strings,
membership on lists; raises `TypeError` on non-iterables. -/
def containsDateKey : YamlVal → Except String Bool
  | .map kv => .ok (kv.any (fun p => p.1 == "date"))
  | .str s => .ok (strContains s "date")
  | .list xs => .ok (xs.any (fun v => match v with | .str s => s == "date" | _ => false))
  | v => .error ("TypeError: argument of type " ++ v.typeName ++ " is not iterable")

/-- Python `fm[k]`: dict item lookup; raises `TypeError` on other values. -/
def YamlVal.getItem : YamlVal → String → Except String YamlVal
  | .map kv, k =>
      match kv.find? (fun p => p.1 == k) with
      | some p => .ok p.2
      | Option.none => .error ("KeyError: " ++ k)
  | v, _ => .error ("TypeError: " ++ v.typeName ++ " indices must be integers")

/-- Python `fm.get(k, dflt)`: raises `AttributeError` on non-dicts. -/
def YamlVal.getDefault : YamlVal → String → YamlVal → Except String YamlVal
  | .map kv, k, dflt =>
      .ok (match kv.find? (fun p => p.1 == k) with
           | some p => p.2
           | Option.none => dflt)
  | v, _, _ => .error ("AttributeError: " ++ v.typeName ++ " object has no attribute get")

/-! ### The pipeline: parse_note, date resolution, get_recent_notes -/

/-- A file met during the directory walk: its joined path, its base name,
and its full text. -/
structure NoteFile where
  path : String
  name : String
  content : String
deriving DecidableEq, Repr

/-- The per-note record appended to `recent_notes`. -/
structure NoteRec where
  title : String
  content : String
  category : String
  date : DateTime
deriving DecidableEq, Repr

/-- What processing one walked file produced: a note, a silent drop (no
resolvable date, or a stale date), or an exception caught by the per-file
handler (with the printed message). -/
inductive FileResult where
  | included (n : NoteRec)
  | dropped
  | skipped (msg : String)
deriving DecidableEq, Repr

/-- `parse_note`: when the content starts with `---`, split on `---` at most
twice; given three parts, YAML-parse the middle one and return it with the
remainder as the body; on a YAML error, log and fall back to treating the
entire content as the body with no front matter. Returns
(front matter, body, printed error lines). -/
def parse_note (yaml : String → Except String YamlVal) (path content : String) :
    YamlVal × String × List String :=
  if strStartsWith content "---" then
    match splitFirst ("---".data) content.data with
    | Option.none => (.nullv, content, [])
    | some (_, r) =>
        match splitFirst ("---".data) r with
        | Option.none => (.nullv, content, [])
        | some (p1, p2) =>
            match yaml (⟨p1⟩ : String) with
            | .ok fm => (fm, (⟨p2⟩ : String), [])
            | .error e => (.nullv, content, ["Error parsing " ++ path ++ ": " ++ e])
  else (.nullv, content, [])

/-- The metadata date attempt (the inner `try` of `get_recent_notes`): a
native date value becomes midnight of that date, anything else goes through
`strptime(str(d), '%Y-%m-%d')`; every inner exception yields `none`. -/
def metaDateVal (fm : YamlVal) : Option DateTime :=
  match fm.getItem "date" with
  | .error _ => Option.none
  | .ok (.date d) => some d.toDateTime
  | .ok v => (strptimeYmd v.pyStr).map Date.toDateTime

/-- `if front_matter and 'date' in front_matter:` followed by the inner
`try`: the `in` test may itself raise (propagating to the per-file handler);
otherwise the metadata attempt yields an optional date. -/
def metadataDateCode (fm : YamlVal) : Except String (Option DateTime) :=
  if fm.truthy then
    match containsDateKey fm with
    | .error e => .error e
    | .ok true => .ok (metaDateVal fm)
    | .ok false => .ok Option.none
  else .ok Option.none

/-- The full date resolution: metadata first, then the first 10 characters
of the file name through `strptime`. -/
def dateChainCode (fm : YamlVal) (fname : String) : Except String (Option DateTime) :=
  match metadataDateCode fm with
  | .error e => .error e
  | .ok (some d) => .ok (some d)
  | .ok Option.none => .ok ((strptimeYmd (strTake 10 fname)).map Date.toDateTime)

/-- Construction of the appended record: `front_matter.get('title', file) if
front_matter else file`, the stripped body, the category with its `'General'`
default, and the resolved date; `.get` on a truthy non-dict raises. -/
def buildNote (fm : YamlVal) (body : String) (fname : String) (dt : DateTime) :
    Except String NoteRec :=
  match (if fm.truthy then fm.getDefault "title" (.str fname) else .ok (.str fname)) with
  | .error e => .error e
  | .ok t =>
      match (if fm.truthy then fm.getDefault "category" (.str "General")
             else .ok (.str "General")) with
      | .error e => .error e
      | .ok c => .ok ⟨t.pyStr, pyStrip body, c.pyStr, dt⟩

/-- The message printed by the per-file exception handler. -/
def skipMsg (name e : String) : String := "Skipping file " ++ name ++ " due to error: " ++ e

/-- The front matter `parse_note` yields for a file. -/
def parsedFm (yaml : String → Except String YamlVal) (f : NoteFile) : YamlVal :=
  (parse_note yaml f.path f.content).1

/-- The body `parse_note` yields for a file. -/
def parsedBody (yaml : String → Except String YamlVal) (f : NoteFile) : String :=
  (parse_note yaml f.path f.content).2.1

/-- The lines `parse_note` prints for a file. -/
def parseLogs (yaml : String → Except String YamlVal) (f : NoteFile) : List String :=
  (parse_note yaml f.path f.content).2.2

/-- Processing of one walked `.md` file (the body of the per-file `try`),
returning the outcome together with the lines `parse_note` printed. -/
def processFile (yaml : String → Except String YamlVal) (cutoffTs : Int) (f : NoteFile) :
    FileResult × List String :=
  match dateChainCode (parsedFm yaml f) f.name with
  | .error e => (.skipped (skipMsg f.name e), parseLogs yaml f)
  | .ok Option.none => (.dropped, parseLogs yaml f)
  | .ok (some dt) =>
      if cutoffTs ≤ dt.ts then
        match buildNote (parsedFm yaml f) (parsedBody yaml f) f.name dt with
        | .ok n => (.included n, parseLogs yaml f)
        | .error e => (.skipped (skipMsg f.name e), parseLogs yaml f)
      else (.dropped, parseLogs yaml f)

/-- `get_recent_notes`: walk the files in order, keep `.md` names, process
each, and collect the appended notes and all printed lines. -/
def get_recent_notes (yaml : String → Except String YamlVal) (cutoffTs : Int) :
    List NoteFile → List NoteRec × List String
  | [] => ([], [])
  | f :: fs =>
      let rest := get_recent_notes yaml cutoffTs fs
      if strEndsWith f.name ".md" then
        match processFile yaml cutoffTs f with
        | (.included n, plogs) => (n :: rest.1, plogs ++ rest.2)
        | (.dropped, plogs) => (rest.1, plogs ++ rest.2)
        | (.skipped m, plogs) => (rest.1, plogs ++ (m :: rest.2))
      else rest

/-- The cutoff `datetime.datetime.now() - datetime.timedelta(days=days)`. -/
def cutoffOf (now : DateTime) (days : Nat) : Int :=
  now.ts - (days : Int) * (usPerDay : Int)

/-! ### generate_review -/

/-- The fixed empty-input message. -/
def noNotesMsg : String := "No notes found for this week."

/-- The fixed prompt preamble (the triple-quoted literal, verbatim). -/
def basePrompt : String :=
  "\n    You are a personal knowledge assistant. Review the following notes from the past week and provide a comprehensive summary.\n    \n    Structure the review as follows:\n    1. **Executive Summary**: High-level overview of what was learned/collected this week.\n    2. **Key Themes**: Group the notes by themes or categories and summarize the key insights for each.\n    3. **Actionable Insights**: Identify any actionable takeaways or ideas that emerged.\n    4. **Connections**: Identify any interesting connections between different notes.\n    \n    Here are the notes:\n    "

/-- The per-note block appended to the prompt, with the content truncated to
its first 2000 characters. -/
def noteBlock (n : NoteRec) : String :=
  "\n---\nTitle: " ++ n.title ++ "\nCategory: " ++ n.category ++ "\nDate: "
    ++ n.date.date.fmtYmd ++ "\nContent:\n" ++ strTake 2000 n.content ++ "\n"

/-- The complete prompt. -/
def buildPrompt (notes : List NoteRec) : String :=
  basePrompt ++ concatStrs (notes.map noteBlock)

/-- What `generate_review` returned, whether the external service was
contacted, and the prompt submitted to it, if any. -/
structure ReviewResult where
  body : String
  serviceCalled : Bool
  promptSent : Option String
deriving DecidableEq, Repr

/-- `generate_review`: short-circuit on no notes; otherwise submit the prompt
and turn a raised service exception into the fixed error text. -/
def generate_review (service : String → Except String String) (notes : List NoteRec) :
    ReviewResult :=
  if notes.isEmpty then ⟨noNotesMsg, false, Option.none⟩
  else
    match service (buildPrompt notes) with
    | .ok t => ⟨t, true, some (buildPrompt notes)⟩
    | .error e => ⟨"Error generating review: " ++ e, true, some (buildPrompt notes)⟩

/-! ### Filesystem effects and the whole program -/

/-- The visible filesystem state: existing directories and files (path,
content); a written path is unique in `files`. -/
structure FS where
  dirs : List String
  files : List (String × String)
deriving DecidableEq, Repr

/-- All cumulative segment joins of a path (`a/b` yields `a` and `a/b`). -/
def pathPrefixList (p : String) : List String :=
  let segs := (listSplitOn (['/']) p.data).map (fun l => (⟨l⟩ : String))
  (List.range segs.length).map (fun i => String.intercalate "/" (segs.take (i + 1)))

/-- `os.makedirs(p, exist_ok=True)`: the directory and every parent exist
afterwards (re-creating an existing one is harmless). -/
def FS.makedirs (fs : FS) (p : String) : FS :=
  { dirs := fs.dirs ++ pathPrefixList p, files := fs.files }

/-- `open(p, 'w')` plus a full write: replaces any existing file at `p`. -/
def FS.write (fs : FS) (p c : String) : FS :=
  { dirs := fs.dirs, files := fs.files.filter (fun q => !(q.1 == p)) ++ [(p, c)] }

/-- Reading a path back. -/
def FS.read (fs : FS) (p : String) : Option String :=
  (fs.files.find? (fun q => q.1 == p)).map (fun q => q.2)

/-- The output path `weekly_reviews/<date>-Weekly-Review.md`. -/
def outPath (now : DateTime) : String :=
  "weekly_reviews/" ++ now.date.fmtYmd ++ "-Weekly-Review.md"

/-- The written file: heading with the date, blank line, review body. -/
def reviewFileContent (now : DateTime) (body : String) : String :=
  "# Weekly Review - " ++ now.date.fmtYmd ++ "\n\n" ++ body

/-- Truthiness of `os.environ.get("GEMINI_API_KEY")`: set and nonempty. -/
def envTruthy : Option String → Bool
  | Option.none => false
  | some s => !(s == "")

/-- Observable outcome of one run: final filesystem, printed lines, exit
code, and whether the external service was contacted. -/
structure RunState where
  fs : FS
  logs : List String
  exitCode : Nat
  serviceCalled : Bool
deriving DecidableEq, Repr

/-- The whole program: the module-level credential check (which precedes
everything, including any file scanning), then `main`. -/
def runProgram (apiKey : Option String) (yaml : String → Except String YamlVal)
    (service : String → Except String String) (now : DateTime)
    (files : List NoteFile) (fs : FS) : RunState :=
  if envTruthy apiKey then
    let r := get_recent_notes yaml (cutoffOf now 7) files
    let logs0 := "Starting weekly review..." :: r.2
      ++ ["Found " ++ toString r.1.length ++ " notes from the last week."]
    if r.1.isEmpty then ⟨fs, logs0 ++ ["No notes to review."], 0, false⟩
    else
      let rev := generate_review service r.1
      let fs1 := (fs.makedirs "weekly_reviews").write (outPath now)
        (reviewFileContent now rev.body)
      ⟨fs1, logs0 ++ ["Review saved to " ++ outPath now], 0, rev.serviceCalled⟩
  else ⟨fs, ["Warning: GEMINI_API_KEY not set. Skipping review generation."], 0, false⟩

/-! ### Spec-side characterizations used by the claims -/

/-- Front matter shapes for which the record construction cannot raise:
a mapping, or a falsy value (treated as absent). -/
def goodFm (v : YamlVal) : Bool := v.isMap || !v.truthy

/-- The date the chain resolves for a file (`none` when resolution fails or
raises). -/
def fileDate (yaml : String → Except String YamlVal) (f : NoteFile) : Option DateTime :=
  match dateChainCode (parsedFm yaml f) f.name with
  | .ok od => od
  | .error _ => Option.none

/-- Whether, per the spec, a walked file should contribute a note: an `.md`
name, a resolved date, and that date at or after the cutoff. -/
def includeFile (yaml : String → Except String YamlVal) (cutoffTs : Int) (f : NoteFile) :
    Bool :=
  strEndsWith f.name ".md" &&
    (match fileDate yaml f with
     | some dt => decide (cutoffTs ≤ dt.ts)
     | Option.none => false)

/-- Placeholder record (never reached under the theorems' hypotheses). -/
def defaultNote : NoteRec := ⟨"", "", "", ⟨⟨1, 1, 1⟩, 0⟩⟩

/-- The record a contributing file yields. -/
def mkNoteOf (yaml : String → Except String YamlVal) (f : NoteFile) : NoteRec :=
  match fileDate yaml f with
  | some dt =>
      match buildNote (parsedFm yaml f) (parsedBody yaml f) f.name dt with
      | .ok n => n
      | .error _ => defaultNote
  | Option.none => defaultNote

/-- Modelled from the spec: the metadata side of the date-resolution chain as
§3 words it — the metadata `date` field, accepting a native date value or a
string in `YYYY-MM-DD` form; absent or unparseable yields nothing. -/
def metaDateSpec : YamlVal → Option DateTime
  | .map kv =>
      match kv.find? (fun p => p.1 == "date") with
      | some (_, .date d) => some d.toDateTime
      | some (_, .str s) => (strptimeYmd s).map Date.toDateTime
      | _ => Option.none
  | _ => Option.none

/-- The `date` field, when present, is one of the two forms the spec's chain
speaks about (a native date value or a string). -/
def dateFieldOk : YamlVal → Bool
  | .map kv =>
      match kv.find? (fun p => p.1 == "date") with
      | some (_, .date _) => true
      | some (_, .str _) => true
      | some _ => false
      | Option.none => true
  | _ => true

/-! ### Concrete values used by witnesses and counterexamples -/

/-- A YAML oracle for files with no front matter (never consulted there). -/
def yamlNone : String → Except String YamlVal := fun _ => .ok .nullv

/-- A YAML oracle returning a plain-scalar document, as `yaml.safe_load`
does on the text `junk` (a bare word parses to the string itself). -/
def yamlScalar : String → Except String YamlVal := fun _ => .ok (.str "junk")

/-- A YAML oracle returning a mapping with a string date and a title. -/
def yamlMapEx : String → Except String YamlVal :=
  fun _ => .ok (.map [("date", .str "2024-06-03"), ("title", .str "T")])

/-- The worked example file of §8: no header, plain body. -/
def fileEx : NoteFile :=
  ⟨"notes/2024-06-01-meeting.md", "2024-06-01-meeting.md", "Discussed roadmap."⟩

/-- A headered file whose middle part the oracle parses. -/
def fileHdr : NoteFile :=
  ⟨"notes/2024-06-01-x.md", "2024-06-01-x.md", "---\njunk\n---\nbody"⟩

/-- The example run instant, `now = 2024-06-05` at midnight. -/
def nowEx : DateTime := ⟨⟨2024, 6, 5⟩, 0⟩

/-- A run instant one hour past midnight on 2024-06-08. -/
def nowLate : DateTime := ⟨⟨2024, 6, 8⟩, 3600000000⟩

/-- An empty filesystem. -/
def fsEmpty : FS := ⟨[], []⟩

/-- A service oracle that always raises (as a quota or network failure). -/
def serviceErr : String → Except String String := fun _ => .error "boom"

/-- A service oracle that always answers. -/
def serviceOk : String → Except String String := fun _ => .ok "summary text"

/-- A concrete note record. -/
def noteEx : NoteRec := ⟨"T", "Discussed roadmap.", "General", ⟨⟨2024, 6, 1⟩, 0⟩⟩

/-- A YAML oracle returning an integer scalar document, as `yaml.safe_load`
does on the text `5` (a bare number parses to the int itself). -/
def yamlInt : String → Except String YamlVal := fun _ => .ok (.int 5)

/-- A headered file whose middle part is the bare number `5`. -/
def fileInt : NoteFile :=
  ⟨"notes/2024-06-01-x.md", "2024-06-01-x.md", "---\n5\n---\nbody"⟩

/-! ### Helper lemmas -/

/-- Under well-shaped front matter the metadata date step never raises. -/
theorem metadataDateCode_isOk (fm : YamlVal) (h : goodFm fm = true) :
    ∃ od, metadataDateCode fm = Except.ok od := by
  cases fm with
  | nullv => exact ⟨Option.none, rfl⟩
  | str s =>
      simp [goodFm, YamlVal.isMap, YamlVal.truthy] at h
      exact ⟨Option.none, by simp [metadataDateCode, YamlVal.truthy, h]⟩
  | int i =>
      simp [goodFm, YamlVal.isMap, YamlVal.truthy] at h
      exact ⟨Option.none, by simp [metadataDateCode, YamlVal.truthy, h]⟩
  | date d => simp [goodFm, YamlVal.isMap, YamlVal.truthy] at h
  | list xs =>
      simp [goodFm, YamlVal.isMap, YamlVal.truthy] at h
      exact ⟨Option.none, by simp [metadataDateCode, YamlVal.truthy, h]⟩
  | map kv =>
      by_cases ht : (YamlVal.map kv).truthy = true
      · cases hany : kv.any (fun p => p.1 == "date") with
        | true =>
            exact ⟨metaDateVal (.map kv), by
              simp [metadataDateCode, ht, containsDateKey, hany]⟩
        | false =>
            exact ⟨Option.none, by simp [metadataDateCode, ht, containsDateKey, hany]⟩
      · exact ⟨Option.none, by simp [metadataDateCode, ht]⟩

/-- Under well-shaped front matter the record construction never raises. -/
theorem buildNote_ok (fm : YamlVal) (body fname : String) (dt : DateTime)
    (h : goodFm fm = true) : ∃ n, buildNote fm body fname dt = Except.ok n := by
  by_cases ht : fm.truthy = true
  · have hm : fm.isMap = true := by
      cases hmm : fm.isMap
      · simp [goodFm, hmm, ht] at h
      · rfl
    cases fm <;> simp [YamlVal.isMap] at hm
    exact ⟨_, by simp [buildNote, ht, YamlVal.getDefault]; rfl⟩
  · exact ⟨_, by simp [buildNote, ht]; rfl⟩

/-- With well-shaped front matter a file is either included (when its
resolved date meets the cutoff) or silently dropped, as `fileDate` and
`mkNoteOf` describe. -/
theorem processFile_goodFm (yaml : String → Except String YamlVal) (cutoff : Int)
    (f : NoteFile) (h : goodFm (parsedFm yaml f) = true) :
    processFile yaml cutoff f =
      ((match fileDate yaml f with
        | some dt =>
            if cutoff ≤ dt.ts then FileResult.included (mkNoteOf yaml f)
            else FileResult.dropped
        | Option.none => FileResult.dropped), parseLogs yaml f) := by
  obtain ⟨od, hod⟩ := metadataDateCode_isOk _ h
  cases od with
  | some d =>
      have hchain : dateChainCode (parsedFm yaml f) f.name = Except.ok (some d) := by
        simp [dateChainCode, hod]
      have hfd : fileDate yaml f = some d := by simp [fileDate, hchain]
      unfold processFile
      rw [hchain, hfd]
      by_cases hc : cutoff ≤ d.ts
      · obtain ⟨n, hn⟩ := buildNote_ok (parsedFm yaml f) (parsedBody yaml f) f.name d h
        simp [hc, hn, mkNoteOf, hfd]
      · simp [hc]
  | none =>
      have hchain : dateChainCode (parsedFm yaml f) f.name =
          Except.ok ((strptimeYmd (strTake 10 f.name)).map Date.toDateTime) := by
        simp [dateChainCode, hod]
      have hfd : fileDate yaml f = (strptimeYmd (strTake 10 f.name)).map Date.toDateTime := by
        simp [fileDate, hchain]
      unfold processFile
      rw [hchain]
      cases hop : (strptimeYmd (strTake 10 f.name)).map Date.toDateTime with
      | none =>
          rw [hop] at hfd
          simp [hop, hfd]
      | some dt =>
          rw [hop] at hfd
          rw [hfd]
          by_cases hc : cutoff ≤ dt.ts
          · obtain ⟨n, hn⟩ := buildNote_ok (parsedFm yaml f) (parsedBody yaml f) f.name dt h
            simp [hc, hn, mkNoteOf, hfd]
          · simp [hc]

/-- Every line `parse_note` prints is an `Error parsing` line, never a
`Skipping file` line. -/
theorem parseLogs_not_skip (yaml : String → Except String YamlVal) (f : NoteFile) :
    ∀ l ∈ parseLogs yaml f, strStartsWith l "Skipping" = false := by
  intro l hl
  unfold parseLogs parse_note at hl
  split at hl
  · split at hl
    · simp at hl
    · split at hl
      · simp at hl
      · split at hl
        · simp at hl
        · simp at hl
          subst hl
          simp [strStartsWith, String.data_append]
          simp [List.isPrefixOf]
  · simp at hl

/-- Under well-shaped front matter everywhere, the collected notes are
exactly the walk-ordered filter of eligible files, mapped to their records. -/
theorem get_recent_notes_notes_eq (yaml : String → Except String YamlVal) (cutoff : Int)
    (files : List NoteFile) (h : ∀ f ∈ files, goodFm (parsedFm yaml f) = true) :
    (get_recent_notes yaml cutoff files).1 =
      (files.filter (fun f => includeFile yaml cutoff f)).map (fun f => mkNoteOf yaml f) := by
  induction files with
  | nil => rfl
  | cons f fs ih =>
      have ih2 := ih (fun g hg => h g (List.mem_cons_of_mem _ hg))
      have hf := h f (List.mem_cons_self _ _)
      have hpf := processFile_goodFm yaml cutoff f hf
      by_cases hmd : strEndsWith f.name ".md" = true
      · cases hfd : fileDate yaml f with
        | none =>
            have hinc : includeFile yaml cutoff f = false := by simp [includeFile, hfd]
            simp [get_recent_notes, hmd, hpf, hfd, List.filter_cons, hinc, ih2]
        | some dt =>
            by_cases hc : cutoff ≤ dt.ts
            · have hinc : includeFile yaml cutoff f = true := by
                simp [includeFile, hmd, hfd, hc]
              simp [get_recent_notes, hmd, hpf, hfd, hc, List.filter_cons, hinc, ih2]
            · have hinc : includeFile yaml cutoff f = false := by simp [includeFile, hfd, hc]
              simp [get_recent_notes, hmd, hpf, hfd, hc, List.filter_cons, hinc, ih2]
      · have hinc : includeFile yaml cutoff f = false := by simp [includeFile, hmd]
        simp [get_recent_notes, hmd, List.filter_cons, hinc, ih2]

/-- Under well-shaped front matter everywhere, no `Skipping file` line is
ever printed: files without an eligible date are dropped without error. -/
theorem get_recent_notes_no_skip (yaml : String → Except String YamlVal) (cutoff : Int)
    (files : List NoteFile) (h : ∀ f ∈ files, goodFm (parsedFm yaml f) = true) :
    ∀ l ∈ (get_recent_notes yaml cutoff files).2, strStartsWith l "Skipping" = false := by
  induction files with
  | nil => intro l hl; simp [get_recent_notes] at hl
  | cons f fs ih =>
      intro l hl
      have ih2 := ih (fun g hg => h g (List.mem_cons_of_mem _ hg))
      have hf := h f (List.mem_cons_self _ _)
      have hpf := processFile_goodFm yaml cutoff f hf
      by_cases hmd : strEndsWith f.name ".md" = true
      · cases hfd : fileDate yaml f with
        | none =>
            simp [get_recent_notes, hmd, hpf, hfd] at hl
            rcases hl with hl | hl
            · exact parseLogs_not_skip yaml f l hl
            · exact ih2 l hl
        | some dt =>
            by_cases hc : cutoff ≤ dt.ts
            · simp [get_recent_notes, hmd, hpf, hfd, hc] at hl
              rcases hl with hl | hl
              · exact parseLogs_not_skip yaml f l hl
              · exact ih2 l hl
            · simp [get_recent_notes, hmd, hpf, hfd, hc] at hl
              rcases hl with hl | hl
              · exact parseLogs_not_skip yaml f l hl
              · exact ih2 l hl
      · simp [get_recent_notes, hmd] at hl
        exact ih2 l hl

/-- After a write, reading the written path returns the written content. -/
theorem find_filter_append (l : List (String × String)) (p c : String) :
    ((l.filter (fun q => !(q.1 == p)) ++ [(p, c)]).find? (fun q => q.1 == p)) = some (p, c) := by
  rw [List.find?_append]
  have h0 : (l.filter (fun q => !(q.1 == p))).find? (fun q => q.1 == p) = Option.none := by
    rw [List.find?_eq_none]
    intro x hx
    have hx2 := (List.mem_filter.mp hx).2
    simp at hx2 ⊢
    exact hx2
  rw [h0]
  simp [List.find?]

/-- `FS.write` followed by `FS.read` at the same path. -/
theorem FS.read_write (fs : FS) (p c : String) : (fs.write p c).read p = some c := by
  simp [FS.read, FS.write, find_filter_append]

/-- A write leaves exactly one file at the written path. -/
theorem countP_write (fs : FS) (p c : String) :
    List.countP (fun q => q.1 == p) ((fs.write p c).files) = 1 := by
  simp only [FS.write, List.countP_append]
  rw [List.countP_eq_zero.mpr]
  · simp
  · intro a ha
    have ha2 := (List.mem_filter.mp ha).2
    simp at ha2 ⊢
    exact ha2

/-- A member's image sits inside the left-to-right concatenation. -/
theorem concat_infix (g : NoteRec → String) (n : NoteRec) (notes : List NoteRec)
    (h : n ∈ notes) : ∃ a b, concatStrs (notes.map g) = a ++ g n ++ b := by
  induction notes with
  | nil => cases h
  | cons m ms ih =>
      rcases List.mem_cons.mp h with h1 | h1
      · subst h1
        refine ⟨"", concatStrs (ms.map g), ?_⟩
        simp [concatStrs]
      · obtain ⟨a, b, hab⟩ := ih h1
        refine ⟨g m ++ a, b, ?_⟩
        simp [concatStrs, hab, String.append_assoc]

/-- With a mapping-or-falsy front matter whose `date` field (if any) is a
native date or a string, the code's metadata date step computes exactly the
spec's metadata resolution. -/
theorem metadataDateCode_spec (fm : YamlVal) (hg : goodFm fm = true)
    (hd : dateFieldOk fm = true) :
    metadataDateCode fm = Except.ok (metaDateSpec fm) := by
  cases fm with
  | nullv => rfl
  | str s =>
      simp [goodFm, YamlVal.isMap, YamlVal.truthy] at hg
      simp [metadataDateCode, YamlVal.truthy, hg, metaDateSpec]
  | int i =>
      simp [goodFm, YamlVal.isMap, YamlVal.truthy] at hg
      simp [metadataDateCode, YamlVal.truthy, hg, metaDateSpec]
  | date d => simp [goodFm, YamlVal.isMap, YamlVal.truthy] at hg
  | list xs =>
      simp [goodFm, YamlVal.isMap, YamlVal.truthy] at hg
      simp [metadataDateCode, YamlVal.truthy, hg, metaDateSpec]
  | map kv =>
      by_cases ht : (YamlVal.map kv).truthy = true
      · cases hfind : kv.find? (fun p => p.1 == "date") with
        | none =>
            have hany : kv.any (fun p => p.1 == "date") = false := by
              cases hany2 : kv.any (fun p => p.1 == "date")
              · rfl
              · exfalso
                have hsome : (kv.find? (fun p => p.1 == "date")).isSome := by
                  rw [List.find?_isSome]
                  simpa using List.any_eq_true.mp hany2
                rw [hfind] at hsome
                simp at hsome
            simp [metadataDateCode, ht, containsDateKey, hany, metaDateSpec, hfind]
        | some pr =>
            have hany : kv.any (fun p => p.1 == "date") = true := by
              rw [List.any_eq_true]
              have hp := List.find?_some hfind
              exact ⟨pr, List.mem_of_find?_eq_some hfind, by simpa using hp⟩
            have hitem : (YamlVal.map kv).getItem "date" = Except.ok pr.2 := by
              simp [YamlVal.getItem, hfind]
            obtain ⟨kx, v⟩ := pr
            cases v with
            | date d =>
                simp [metadataDateCode, ht, containsDateKey, hany, metaDateVal, hitem,
                  metaDateSpec, hfind]
            | str s =>
                simp [metadataDateCode, ht, containsDateKey, hany, metaDateVal, hitem,
                  metaDateSpec, hfind, YamlVal.pyStr]
            | nullv => simp [dateFieldOk, hfind] at hd
            | int i => simp [dateFieldOk, hfind] at hd
            | list xs => simp [dateFieldOk, hfind] at hd
            | map kv2 => simp [dateFieldOk, hfind] at hd
      · have hkv : kv = [] := by
          simp [YamlVal.truthy] at ht
          exact ht
        subst hkv
        simp [metadataDateCode, YamlVal.truthy, metaDateSpec]

/-! ### Claims -/

/-- Claim C1, counterexample: a file whose front matter parses to a truthy
non-mapping (a plain YAML scalar) but whose file name resolves to a recent
date satisfies the claim's inclusion condition (date resolved and at or after
`now - window`), yet `get_recent_notes` returns no note for it — the
`if and only if` of the claim fails in the `if` direction. -/
theorem C1_counterexample :
    includeFile yamlScalar (cutoffOf nowEx 7) fileHdr = true ∧
    (get_recent_notes yamlScalar (cutoffOf nowEx 7) [fileHdr]).1 = [] := by
  constructor
  · rfl
  · rfl

/-- Claim C1 (amended): for every scanned note file whose parsed front
matter is a mapping or falsy (so the record construction cannot raise), the
Recency Filter includes the note if and only if a date could be resolved and
that date is at or after `now - window`; notes are returned in walk order,
and notes lacking a resolvable date are dropped without a `Skipping file`
error line. -/
theorem C1_amended_recency_filter (yaml : String → Except String YamlVal) (cutoff : Int)
    (files : List NoteFile) (h : ∀ f ∈ files, goodFm (parsedFm yaml f) = true) :
    (get_recent_notes yaml cutoff files).1 =
      (files.filter (fun f => includeFile yaml cutoff f)).map (fun f => mkNoteOf yaml f) ∧
    ∀ l ∈ (get_recent_notes yaml cutoff files).2, strStartsWith l "Skipping" = false :=
  ⟨get_recent_notes_notes_eq yaml cutoff files h,
   get_recent_notes_no_skip yaml cutoff files h⟩

/-- Claim C1 (amended), witness at a concrete input. -/
theorem C1_amended_recency_filter_witness :
    (∀ f ∈ [fileEx], goodFm (parsedFm yamlNone f) = true) ∧
    ((get_recent_notes yamlNone (cutoffOf nowEx 7) [fileEx]).1 =
        ([fileEx].filter (fun f => includeFile yamlNone (cutoffOf nowEx 7) f)).map
          (fun f => mkNoteOf yamlNone f) ∧
      ∀ l ∈ (get_recent_notes yamlNone (cutoffOf nowEx 7) [fileEx]).2,
        strStartsWith l "Skipping" = false) :=
  ⟨by decide,
   C1_amended_recency_filter yamlNone (cutoffOf nowEx 7) [fileEx] (by decide)⟩

/-- Claim C2, counterexample: for a file named `2024-06-01-x.md` whose
header parses to the truthy non-mapping YAML document `5`, the metadata
strategy yields nothing and the first 10 file-name characters form a valid
in-window date, so the claimed chain would resolve 2024-06-01 and contribute
a note; but `'date' in front_matter` raises `TypeError` on the int, the
per-file handler skips the file with a logged error, the filename fallback
never runs, and no note is contributed — the claim fails on this file. -/
theorem C2_counterexample :
    metaDateSpec (parsedFm yamlInt fileInt) = Option.none ∧
    strptimeYmd (strTake 10 fileInt.name) = some ⟨2024, 6, 1⟩ ∧
    cutoffOf nowEx 7 ≤ (Date.toDateTime ⟨2024, 6, 1⟩).ts ∧
    dateChainCode (parsedFm yamlInt fileInt) fileInt.name =
      Except.error "TypeError: argument of type int is not iterable" ∧
    (processFile yamlInt (cutoffOf nowEx 7) fileInt).1 =
      FileResult.skipped (skipMsg fileInt.name
        "TypeError: argument of type int is not iterable") ∧
    (get_recent_notes yamlInt (cutoffOf nowEx 7) [fileInt]).1 = [] :=
  ⟨rfl, rfl, by decide, rfl, rfl, rfl⟩

/-- Claim C2 (amended): for every note file whose parsed front matter is a
mapping or falsy (absent) and whose `date` field, when present, is a native
date value or a string — the two forms the claim accepts — the resolved date
follows the ordered fallback chain: metadata `date` first (native date or
parseable `YYYY-MM-DD` string), else the first 10 characters of the file
name; when neither strategy yields a date the file contributes no note.
For truthy non-mapping front matter the membership test itself can raise and
the file is skipped before the filename fallback (see the counterexample). -/
theorem C2_date_fallback_chain (yaml : String → Except String YamlVal) (cutoff : Int)
    (f : NoteFile)
    (hg : goodFm (parsedFm yaml f) = true)
    (hd : dateFieldOk (parsedFm yaml f) = true) :
    dateChainCode (parsedFm yaml f) f.name =
      Except.ok ((metaDateSpec (parsedFm yaml f)).or
        ((strptimeYmd (strTake 10 f.name)).map Date.toDateTime)) ∧
    ((metaDateSpec (parsedFm yaml f) = Option.none ∧
        strptimeYmd (strTake 10 f.name) = Option.none) →
      (processFile yaml cutoff f).1 = FileResult.dropped) := by
  have hm := metadataDateCode_spec (parsedFm yaml f) hg hd
  constructor
  · cases hs : metaDateSpec (parsedFm yaml f) with
    | some d => simp [dateChainCode, hm, hs, Option.or]
    | none => simp [dateChainCode, hm, hs, Option.or]
  · rintro ⟨h1, h2⟩
    have hfd : fileDate yaml f = Option.none := by
      simp [fileDate, dateChainCode, hm, h1, h2]
    rw [processFile_goodFm yaml cutoff f hg, hfd]

/-- Claim C2, witness at a concrete input (a mapping front matter with a
string date). -/
theorem C2_date_fallback_chain_witness :
    (goodFm (parsedFm yamlMapEx fileHdr) = true ∧
      dateFieldOk (parsedFm yamlMapEx fileHdr) = true) ∧
    (dateChainCode (parsedFm yamlMapEx fileHdr) fileHdr.name =
        Except.ok ((metaDateSpec (parsedFm yamlMapEx fileHdr)).or
          ((strptimeYmd (strTake 10 fileHdr.name)).map Date.toDateTime)) ∧
      ((metaDateSpec (parsedFm yamlMapEx fileHdr) = Option.none ∧
          strptimeYmd (strTake 10 fileHdr.name) = Option.none) →
        (processFile yamlMapEx (cutoffOf nowEx 7) fileHdr).1 = FileResult.dropped)) :=
  ⟨⟨by decide, by decide⟩,
   C2_date_fallback_chain yamlMapEx (cutoffOf nowEx 7) fileHdr (by decide) (by decide)⟩

/-- Claim C3: with zero eligible notes, `generate_review` returns exactly the
fixed no-notes message, never contacts the external service, and submits no
prompt. -/
theorem C3_empty_notes_short_circuit (service : String → Except String String) :
    generate_review service [] =
      ⟨"No notes found for this week.", false, Option.none⟩ := rfl

/-- Claim C4: when every call to the external service raises, `generate_review`
returns (instead of raising) the deterministic error text embedding the
failure description; that text becomes the review body, the run still
completes with exit code 0, and the output file is written with that body. -/
theorem C4_service_failure_recovered (k : String) (yaml : String → Except String YamlVal)
    (service : String → Except String String) (now : DateTime) (files : List NoteFile)
    (fs : FS) (e : String)
    (hk : (k == "") = false)
    (hn : (get_recent_notes yaml (cutoffOf now 7) files).1 ≠ [])
    (hs : ∀ p, service p = Except.error e) :
    (generate_review service (get_recent_notes yaml (cutoffOf now 7) files).1).body =
        "Error generating review: " ++ e ∧
    (runProgram (some k) yaml service now files fs).exitCode = 0 ∧
    (runProgram (some k) yaml service now files fs).fs.read (outPath now) =
      some ("# Weekly Review - " ++ now.date.fmtYmd ++ "\n\n"
        ++ ("Error generating review: " ++ e)) := by
  have hne : ((get_recent_notes yaml (cutoffOf now 7) files).1).isEmpty = false := by
    cases hx : (get_recent_notes yaml (cutoffOf now 7) files).1 with
    | nil => exact absurd hx hn
    | cons a l => rfl
  have hgr : (generate_review service (get_recent_notes yaml (cutoffOf now 7) files).1).body =
      "Error generating review: " ++ e := by
    simp [generate_review, hne, hs]
  refine ⟨hgr, ?_, ?_⟩
  · simp [runProgram, envTruthy, hk, hne]
  · simp [runProgram, envTruthy, hk, hne, FS.read_write, reviewFileContent, hgr]

/-- Claim C4, witness at a concrete input. -/
theorem C4_service_failure_recovered_witness :
    (("k" == "") = false ∧
      (get_recent_notes yamlNone (cutoffOf nowEx 7) [fileEx]).1 ≠ [] ∧
      (∀ p, serviceErr p = Except.error "boom")) ∧
    ((generate_review serviceErr (get_recent_notes yamlNone (cutoffOf nowEx 7) [fileEx]).1).body =
        "Error generating review: " ++ "boom" ∧
      (runProgram (some "k") yamlNone serviceErr nowEx [fileEx] fsEmpty).exitCode = 0 ∧
      (runProgram (some "k") yamlNone serviceErr nowEx [fileEx] fsEmpty).fs.read (outPath nowEx) =
        some ("# Weekly Review - " ++ nowEx.date.fmtYmd ++ "\n\n"
          ++ ("Error generating review: " ++ "boom"))) :=
  ⟨⟨rfl, by decide, fun p => rfl⟩,
   C4_service_failure_recovered "k" yamlNone serviceErr nowEx [fileEx] fsEmpty "boom"
     rfl (by decide) (fun p => rfl)⟩

/-- Claim C5: for a nonempty note sequence, the prompt submitted to the
external service contains, for each note, a block with the fixed `---`
delimiter line, the note's title, its category, its `YYYY-MM-DD` date, and
its content truncated to the first 2000 characters. -/
theorem C5_prompt_contains_blocks (service : String → Except String String)
    (notes : List NoteRec) (n : NoteRec) (hmem : n ∈ notes) :
    ∃ a b, (generate_review service notes).promptSent =
      some (a ++ ("\n---\nTitle: " ++ n.title ++ "\nCategory: " ++ n.category ++ "\nDate: "
        ++ n.date.date.fmtYmd ++ "\nContent:\n" ++ strTake 2000 n.content ++ "\n") ++ b) := by
  have hne : notes.isEmpty = false := by
    cases notes with
    | nil => cases hmem
    | cons a l => rfl
  obtain ⟨a, b, hab⟩ := concat_infix noteBlock n notes hmem
  have hps : (generate_review service notes).promptSent = some (buildPrompt notes) := by
    cases hsrv : service (buildPrompt notes) <;> simp [generate_review, hne, hsrv]
  refine ⟨basePrompt ++ a, b, ?_⟩
  rw [hps]
  simp [buildPrompt, hab, noteBlock, String.append_assoc]

/-- Claim C5, witness at a concrete input. -/
theorem C5_prompt_contains_blocks_witness :
    noteEx ∈ [noteEx] ∧
    ∃ a b, (generate_review serviceOk [noteEx]).promptSent =
      some (a ++ ("\n---\nTitle: " ++ noteEx.title ++ "\nCategory: " ++ noteEx.category
        ++ "\nDate: " ++ noteEx.date.date.fmtYmd ++ "\nContent:\n"
        ++ strTake 2000 noteEx.content ++ "\n") ++ b) :=
  ⟨by decide, C5_prompt_contains_blocks serviceOk [noteEx] noteEx (by decide)⟩

/-- Claim C6: the worked example — a file `2024-06-01-meeting.md` with no
metadata header and body `Discussed roadmap.`, run at `now = 2024-06-05` with
a 7-day window, yields exactly one note with date 2024-06-01, the file name
as title, category `General`, and the trimmed body as content (whatever the
YAML oracle would say, since no header is present). -/
theorem C6_worked_example (yaml : String → Except String YamlVal) :
    (get_recent_notes yaml (cutoffOf nowEx 7) [fileEx]).1 =
      [⟨"2024-06-01-meeting.md", "Discussed roadmap.", "General", ⟨⟨2024, 6, 1⟩, 0⟩⟩] := rfl

/-- Claim C7: with the credential variable absent, the whole run aborts at
startup with the warning line, exit code 0, and an untouched filesystem —
the outcome does not depend on the files at all, so no scanning happened. -/
theorem C7_missing_credential (yaml : String → Except String YamlVal)
    (service : String → Except String String) (now : DateTime)
    (files : List NoteFile) (fs : FS) :
    runProgram Option.none yaml service now files fs =
      ⟨fs, ["Warning: GEMINI_API_KEY not set. Skipping review generation."], 0, false⟩ := rfl

/-- Claim C8: with a credential and at least one eligible note, the writer
ensures the output directory exists, writes
`weekly_reviews/<date>-Weekly-Review.md` containing the date heading and the
review body, leaves exactly one file at that path, and any second run on the
same calendar day still leaves exactly one file (overwriting, not adding). -/
theorem C8_review_writer (k : String) (yaml : String → Except String YamlVal)
    (service : String → Except String String) (now : DateTime) (files : List NoteFile)
    (fs : FS)
    (hk : (k == "") = false)
    (hn : (get_recent_notes yaml (cutoffOf now 7) files).1 ≠ []) :
    "weekly_reviews" ∈ (runProgram (some k) yaml service now files fs).fs.dirs ∧
    (runProgram (some k) yaml service now files fs).fs.read (outPath now) =
      some ("# Weekly Review - " ++ now.date.fmtYmd ++ "\n\n"
        ++ (generate_review service (get_recent_notes yaml (cutoffOf now 7) files).1).body) ∧
    List.countP (fun q => q.1 == outPath now)
      ((runProgram (some k) yaml service now files fs).fs.files) = 1 ∧
    (∀ (k2 : Option String) (yaml2 : String → Except String YamlVal)
        (service2 : String → Except String String) (now2 : DateTime)
        (files2 : List NoteFile), now2.date = now.date →
      List.countP (fun q => q.1 == outPath now)
        ((runProgram k2 yaml2 service2 now2 files2
          (runProgram (some k) yaml service now files fs).fs).fs.files) = 1) := by
  have hne : ((get_recent_notes yaml (cutoffOf now 7) files).1).isEmpty = false := by
    cases hx : (get_recent_notes yaml (cutoffOf now 7) files).1 with
    | nil => exact absurd hx hn
    | cons a l => rfl
  have hfs : (runProgram (some k) yaml service now files fs).fs =
      (fs.makedirs "weekly_reviews").write (outPath now)
        (reviewFileContent now
          (generate_review service (get_recent_notes yaml (cutoffOf now 7) files).1).body) := by
    simp [runProgram, envTruthy, hk, hne]
  refine ⟨?_, ?_, ?_, ?_⟩
  · rw [hfs]
    simp only [FS.write, FS.makedirs]
    exact List.mem_append_right _ (by decide)
  · rw [hfs, FS.read_write]
    simp [reviewFileContent]
  · rw [hfs]
    exact countP_write _ _ _
  · intro k2 yaml2 service2 now2 files2 hdate
    have hout : outPath now2 = outPath now := by simp [outPath, hdate]
    have hone : List.countP (fun q => q.1 == outPath now)
        ((runProgram (some k) yaml service now files fs).fs).files = 1 := by
      rw [hfs]
      exact countP_write _ _ _
    generalize (runProgram (some k) yaml service now files fs).fs = fs1 at hone ⊢
    by_cases h2 : envTruthy k2 = true
    · by_cases h3 : ((get_recent_notes yaml2 (cutoffOf now2 7) files2).1).isEmpty = true
      · simp only [runProgram]
        rw [if_pos h2, if_pos h3]
        exact hone
      · simp only [runProgram]
        rw [if_pos h2, if_neg h3]
        simp only [hout]
        exact countP_write _ _ _
    · simp only [runProgram]
      rw [if_neg h2]
      exact hone

/-- Claim C8, witness at a concrete input. -/
theorem C8_review_writer_witness :
    (("k" == "") = false ∧ (get_recent_notes yamlNone (cutoffOf nowEx 7) [fileEx]).1 ≠ []) ∧
    ("weekly_reviews" ∈ (runProgram (some "k") yamlNone serviceOk nowEx [fileEx] fsEmpty).fs.dirs ∧
      (runProgram (some "k") yamlNone serviceOk nowEx [fileEx] fsEmpty).fs.read (outPath nowEx) =
        some ("# Weekly Review - " ++ nowEx.date.fmtYmd ++ "\n\n"
          ++ (generate_review serviceOk
               (get_recent_notes yamlNone (cutoffOf nowEx 7) [fileEx]).1).body) ∧
      List.countP (fun q => q.1 == outPath nowEx)
        ((runProgram (some "k") yamlNone serviceOk nowEx [fileEx] fsEmpty).fs.files) = 1 ∧
      (∀ (k2 : Option String) (yaml2 : String → Except String YamlVal)
          (service2 : String → Except String String) (now2 : DateTime)
          (files2 : List NoteFile), now2.date = nowEx.date →
        List.countP (fun q => q.1 == outPath nowEx)
          ((runProgram k2 yaml2 service2 now2 files2
            (runProgram (some "k") yamlNone serviceOk nowEx [fileEx] fsEmpty).fs).fs.files) = 1)) :=
  ⟨⟨rfl, by decide⟩,
   C8_review_writer "k" yamlNone serviceOk nowEx [fileEx] fsEmpty rfl (by decide)⟩

/-- A successful metadata date attempt always lands at midnight. -/
theorem metaDateVal_tod (fm : YamlVal) (dt : DateTime) (h : metaDateVal fm = some dt) :
    dt.tod = 0 := by
  unfold metaDateVal at h
  split at h
  · simp at h
  · simp at h
    rw [← h]
    rfl
  · rcases Option.map_eq_some'.mp h with ⟨d0, hd0, hdt⟩
    rw [← hdt]
    rfl

/-- A successful metadata date resolution always lands at midnight. -/
theorem metadataDateCode_tod (fm : YamlVal) (dt : DateTime)
    (h : metadataDateCode fm = Except.ok (some dt)) : dt.tod = 0 := by
  unfold metadataDateCode at h
  split at h
  · split at h
    · simp at h
    · simp at h
      exact metaDateVal_tod fm dt h
    · simp at h
  · simp at h

/-- Claim C9: resolved note dates are normalized to midnight, while the
cutoff is `now - window` at the run's time of day; hence a note dated exactly
`window` days before the run is included precisely when the run happens at
midnight. -/
theorem C9_midnight_cutoff :
    (∀ (fm : YamlVal) (fname : String) (dt : DateTime),
        dateChainCode fm fname = Except.ok (some dt) → dt.tod = 0) ∧
    (∀ (now : DateTime) (w : Nat) (d : Date), d.toDays + w = now.date.toDays →
        (cutoffOf now w ≤ (DateTime.mk d 0).ts ↔ now.tod = 0)) := by
  constructor
  · intro fm fname dt h
    cases hmc : metadataDateCode fm with
    | error e =>
        unfold dateChainCode at h
        rw [hmc] at h
        simp at h
    | ok od =>
        unfold dateChainCode at h
        rw [hmc] at h
        cases od with
        | some d =>
            simp at h
            rw [← h]
            exact metadataDateCode_tod fm d hmc
        | none =>
            simp at h
            rcases h with ⟨d0, hd0, hdt⟩
            rw [← hdt]
            rfl
  · intro now w d hw
    simp [cutoffOf, DateTime.ts, usPerDay]
    omega

/-- Claim C9, witness at concrete inputs. -/
theorem C9_midnight_cutoff_witness :
    ((⟨⟨2024, 6, 3⟩, 0⟩ : DateTime).tod = 0) ∧
    (cutoffOf nowLate 7 ≤ (DateTime.mk ⟨2024, 6, 1⟩ 0).ts ↔ nowLate.tod = 0) :=
  ⟨C9_midnight_cutoff.1 (.map [("date", .str "2024-06-03")]) "x" ⟨⟨2024, 6, 3⟩, 0⟩ rfl,
   C9_midnight_cutoff.2 nowLate 7 ⟨2024, 6, 1⟩ (by decide)⟩

/-- Claim C10: when the parsed front matter is a truthy non-mapping (a string
scalar or a list) and a recent date is still resolvable from the file name,
the record construction raises at the title lookup (an `AttributeError`,
since only dicts have `.get`), the per-file handler catches it, and the file
is skipped entirely with a `Skipping file` message — neither included with
default title and category nor treated as a header-less file. -/
theorem C10_truthy_nonmapping_skipped (yaml : String → Except String YamlVal) (cutoff : Int)
    (f : NoteFile) (d : Date)
    (htr : (parsedFm yaml f).truthy = true)
    (hform : (∃ s, parsedFm yaml f = YamlVal.str s) ∨
      (∃ xs, parsedFm yaml f = YamlVal.list xs))
    (hdate : strptimeYmd (strTake 10 f.name) = some d)
    (hrecent : cutoff ≤ (Date.toDateTime d).ts) :
    (processFile yaml cutoff f).1 =
      FileResult.skipped (skipMsg f.name ("AttributeError: "
        ++ (parsedFm yaml f).typeName ++ " object has no attribute get")) := by
  rcases hform with ⟨s, hs⟩ | ⟨xs, hs⟩
  · rw [hs] at htr
    have hchain : dateChainCode (YamlVal.str s) f.name = Except.ok (some d.toDateTime) := by
      cases hc : strContains s "date" <;>
        simp [dateChainCode, metadataDateCode, htr, containsDateKey, hc, metaDateVal,
          YamlVal.getItem, hdate]
    unfold processFile
    rw [hs, hchain]
    simp [hrecent, buildNote, htr, YamlVal.getDefault, YamlVal.typeName]
  · rw [hs] at htr
    have hchain : dateChainCode (YamlVal.list xs) f.name = Except.ok (some d.toDateTime) := by
      cases hc : xs.any (fun v => match v with | .str s2 => s2 == "date" | _ => false) <;>
        simp [dateChainCode, metadataDateCode, htr, containsDateKey, hc, metaDateVal,
          YamlVal.getItem, hdate]
    unfold processFile
    rw [hs, hchain]
    simp [hrecent, buildNote, htr, YamlVal.getDefault, YamlVal.typeName]

/-- Claim C10, witness at a concrete input (a plain-scalar front matter). -/
theorem C10_truthy_nonmapping_skipped_witness :
    ((parsedFm yamlScalar fileHdr).truthy = true ∧
      (∃ s, parsedFm yamlScalar fileHdr = YamlVal.str s) ∧
      strptimeYmd (strTake 10 fileHdr.name) = some ⟨2024, 6, 1⟩ ∧
      cutoffOf nowEx 7 ≤ (Date.toDateTime ⟨2024, 6, 1⟩).ts) ∧
    (processFile yamlScalar (cutoffOf nowEx 7) fileHdr).1 =
      FileResult.skipped (skipMsg fileHdr.name ("AttributeError: "
        ++ (parsedFm yamlScalar fileHdr).typeName ++ " object has no attribute get")) :=
  ⟨⟨rfl, ⟨"junk", rfl⟩, rfl, by decide⟩,
   C10_truthy_nonmapping_skipped yamlScalar (cutoffOf nowEx 7) fileHdr ⟨2024, 6, 1⟩ rfl
     (Or.inl ⟨"junk", rfl⟩) rfl (by decide)⟩
